import Mathlib

/-!
Verification development for the jupyter-js-notebook model layer.

The definitions below are a shallow embedding of:
  * the output-area model (`OutputAreaModel.add` / `OutputAreaModel.clear`,
    from `src/output-area/model.ts`, second document of
    `src/src/notebook/serialize.ts`);
  * the notebook model (`NotebookModel` of `src/unnamed/part_000`,
    i.e. `src/notebook/model.ts`): active-cell tracking, cell factories,
    `runActiveCell`, `executeCell`, `save`, read-only cascade;
  * notebook serialization (`serialize` / `deserialize` of
    `src/src/notebook/serialize.ts`);
  * the widget reconciler (`NotebookWidget.onCellsChanged` of
    `src/src/notebook/widget.ts`).

The cell-model family (`src/cells`), the nbformat type declarations
(`src/notebook/nbformat.ts`) and the editor/input-area sub-models are not
present under `src/`; those data carriers are modelled from the spec and
are marked as such in their doc comments.  The observable-list container
(`phosphor-observablelist`) is an external collaborator; only the accessor
semantics the spec states (negative index `-1` addresses the last element,
`add` appends, `set` replaces in place) are modelled.
-/

/-- Modelled from the spec: an Output entry of an output area
(nbformat.ts is not under src/).  A tagged variant over
Stream(name, text), ExecuteResult, DisplayData and Error; the
`unknown` constructor carries any other `output_type` string, which the
spec says is silently dropped by `OutputAreaModel.add`
(forward-compatibility policy, spec section 4.2; such values reach `add`
at runtime because `executeCell` forwards every I/O message with
`output_type` set to the raw message type). -/
inductive Output where
  | stream (name : String) (text : String)
  | executeResult (data : String) (executionCount : Option Int)
  | displayData (data : String)
  | error (ename : String) (evalue : String) (traceback : List String)
  | unknown (outputType : String)
  deriving Repr, DecidableEq

/-- Whether the output is a stream output (nbformat `isStream` type guard). -/
def Output.isStream : Output → Bool
  | .stream _ _ => true
  | _ => false

/-- Whether `output_type` is one of the four kinds accepted by the
`switch` in `OutputAreaModel.add` (stream, execute_result, display_data,
error). -/
def Output.isRecognized : Output → Bool
  | .unknown _ => false
  | _ => true

/-- The state of `OutputAreaModel`: the observable list `_outputs`
(embedded as a plain list) and the private `_clearNext` flag.
A freshly constructed model has an empty list and `_clearNext = false`. -/
structure OutputAreaModel where
  outputs : List Output
  clearNext : Bool
  deriving Repr, DecidableEq

/-- A freshly constructed `OutputAreaModel` (constructor of the class). -/
def OutputAreaModel.fresh : OutputAreaModel :=
  { outputs := [], clearNext := false }

/-- `OutputAreaModel.clear(wait)`: if `wait` is set, only mark
`_clearNext`; otherwise clear the outputs list immediately (the
`_clearNext` flag is left untouched, as in the source). -/
def OutputAreaModel.clear (m : OutputAreaModel) (wait : Bool) : OutputAreaModel :=
  if wait then { m with clearNext := true } else { m with outputs := [] }

/-- The `switch (output.output_type)` at the end of
`OutputAreaModel.add`: append the output to the list when its kind is one
of the four recognized kinds, silently drop it otherwise. -/
def OutputAreaModel.appendRecognized (m : OutputAreaModel) (out : Output) : OutputAreaModel :=
  match out with
  | .unknown _ => m
  | _ => { m with outputs := m.outputs ++ [out] }

/-- `OutputAreaModel.add(output)`: first apply a pending deferred clear;
then, when both the incoming output and the last list entry
(`outputs.get(-1)`, the observable list addresses `-1` from the end) are
stream outputs with the same channel name, concatenate the previous text
in front of the incoming text and replace the last entry in place
(`outputs.set(-1, output)`); otherwise fall through to the
`output_type` switch. -/
def OutputAreaModel.add (m0 : OutputAreaModel) (out : Output) : OutputAreaModel :=
  let m := if m0.clearNext then { outputs := [], clearNext := false } else m0
  match m.outputs.getLast? with
  | some last =>
    match last, out with
    | .stream lname ltext, .stream name text =>
      if name = lname then
        { m with outputs := m.outputs.dropLast ++ [Output.stream name (ltext ++ text)] }
      else
        m.appendRecognized out
    | _, _ => m.appendRecognized out
  | none => m.appendRecognized out

/-- The type tag of a cell model (code, markdown or raw). -/
inductive CellType where
  | code
  | markdown
  | raw
  deriving Repr, DecidableEq

/-- Modelled from the spec: the cell-model family of `src/cells` (not
under src/), flattened into one record with a `type` discriminant as the
spec recommends for a closed tagged union.  Common attributes: the input
sub-model is embedded as its observable pieces `text`
(`input.textEditor.text`), `prompt` (`input.prompt`) and `mimetype`
(`input.textEditor.mimetype`); plus `tags`, `name`, `trusted`, `active`,
`selected` and `readOnly`.  Code-cell-only: `output`, `executionCount`,
`collapsed`, `scrolled`.  Markdown-cell-only: `rendered`.
Raw-cell-only: `format`. -/
structure CellModel where
  type : CellType
  text : String
  prompt : String
  mimetype : String
  tags : List String
  name : Option String
  trusted : Bool
  active : Bool
  selected : Bool
  readOnly : Bool
  output : OutputAreaModel
  executionCount : Option Int
  collapsed : Bool
  scrolled : Bool
  rendered : Bool
  format : Option String
  deriving Repr, DecidableEq

/-- Modelled from the spec: the default state of a newly constructed cell
model of the given type, before the notebook factory applies the default
mimetype, the read-only cascade and the trusted flag. -/
def freshCell (t : CellType) : CellModel :=
  { type := t, text := "", prompt := "", mimetype := "", tags := [], name := none,
    trusted := false, active := false, selected := false, readOnly := false,
    output := OutputAreaModel.fresh, executionCount := none,
    collapsed := false, scrolled := false, rendered := false, format := none }

/-- Modelled from the spec: the notebook metadata record (kernel spec
name and display name, language info) carried verbatim through
serialization. -/
structure NotebookMetadata where
  kernelspecName : String
  kernelspecDisplayName : String
  languageInfoName : String
  deriving Repr, DecidableEq

/-- The data the notebook model reads from an attached
`INotebookSession` (external collaborator): disposal state, the notebook
path used by `_save`, and the kernel identity fetched during `save`. -/
structure SessionHandle where
  isDisposed : Bool
  notebookPath : String
  kernelName : String
  kernelSpecDisplayName : String
  kernelLanguageInfoName : String
  deriving Repr, DecidableEq

/-- The interactivity mode of the active cell (`NotebookMode`). -/
inductive NotebookMode where
  | command
  | edit
  deriving Repr, DecidableEq

/-- The state of `NotebookModel` (`src/unnamed/part_000`): the observable
cell list and the properties of `NotebookModelPrivate`.
`selectedCellIndex` is a ghost field: `deserialize` assigns
`model.selectedCellIndex`, a property that `INotebookModel` does not
declare; in JavaScript this creates an ad-hoc object property that no
code of the repository ever reads.  It is carried here so that the
assignment made by `deserialize` is visible in the embedding. -/
structure NotebookModel where
  cells : List CellModel
  activeCellIndex : Int
  mode : NotebookMode
  defaultMimetype : String
  readOnly : Bool
  dirty : Bool
  metadata : NotebookMetadata
  session : Option SessionHandle
  selectedCellIndex : Option Int
  deriving Repr, DecidableEq

/-- The clamping done by the `activeCellIndex` setter:
`value = Math.max(value, 0); value = Math.min(value, this.cells.length - 1)`. -/
def clampIndex (value : Int) (len : Nat) : Int :=
  min (max value 0) ((len : Int) - 1)

/-- The loop of the `activeCellIndex` setter: rewrite the `active` flag
of the cell at position `i` (counting from the accumulator index) to
`value === i`. -/
def setActiveFlags (v : Int) : Nat → List CellModel → List CellModel
  | _, [] => []
  | i, c :: cs => { c with active := decide (v = (i : Int)) } :: setActiveFlags v (i + 1) cs

/-- The `activeCellIndex` setter: clamp the written value into
`[0, length - 1]` and rewrite every cell's `active` flag to
`value === i`. -/
def NotebookModel.setActiveCellIndex (nb : NotebookModel) (value : Int) : NotebookModel :=
  let v := clampIndex value nb.cells.length
  { nb with activeCellIndex := v, cells := setActiveFlags v 0 nb.cells }

/-- `cells.add(cell)` together with the `_onCellsChanged` reaction to the
Add event: the cell is appended and `activeCellIndex` is set to the new
item's index (`change.newIndex`). -/
def NotebookModel.addCell (nb : NotebookModel) (c : CellModel) : NotebookModel :=
  let nb2 : NotebookModel := { nb with cells := nb.cells ++ [c] }
  nb2.setActiveCellIndex ((nb2.cells.length : Int) - 1)

/-- `cells.removeAt(i)` together with the `_onCellsChanged` reaction to
the Remove event: the removed cell is disposed and
`activeCellIndex = Math.min(change.oldIndex, this.cells.length - 1)`
(the setter clamps again).  Out-of-range indices leave the list
untouched (the observable list emits no event). -/
def NotebookModel.removeCellAt (nb : NotebookModel) (i : Nat) : NotebookModel :=
  if i < nb.cells.length then
    let nb2 : NotebookModel := { nb with cells := nb.cells.eraseIdx i }
    nb2.setActiveCellIndex (min (i : Int) ((nb2.cells.length : Int) - 1))
  else nb

/-- The `readOnly` setter: store the property and cascade the value onto
every cell currently in the list. -/
def NotebookModel.setReadOnly (nb : NotebookModel) (value : Bool) : NotebookModel :=
  { nb with readOnly := value,
            cells := nb.cells.map (fun c => { c with readOnly := value }) }

/-- `NotebookModel.createCodeCell(source?)`: a fresh code cell whose
editor gets the source cell's mimetype when the source is a code cell,
else the notebook `defaultMimetype`, and the notebook's current
`readOnly`; `trusted` is set, then overwritten from the source cell when
one is given, along with the input text and tags; code-cell sources
additionally contribute `collapsed`, `scrolled` and their outputs
(appended one by one onto the fresh, empty output list). -/
def NotebookModel.createCodeCell (nb : NotebookModel) (source : Option CellModel) : CellModel :=
  let mimetype :=
    match source with
    | some s => if s.type = CellType.code then s.mimetype else nb.defaultMimetype
    | none => nb.defaultMimetype
  let base := freshCell CellType.code
  let cell := { base with mimetype := mimetype, readOnly := nb.readOnly, trusted := true }
  match source with
  | none => cell
  | some s =>
    let cell := { cell with trusted := s.trusted, text := s.text, tags := s.tags }
    if s.type = CellType.code then
      { cell with collapsed := s.collapsed, scrolled := s.scrolled,
                  output := { cell.output with
                                outputs := cell.output.outputs ++ s.output.outputs } }
    else cell

/-- `NotebookModel.createMarkdownCell(source?)`: fresh markdown cell with
the gfm mimetype and the notebook's `readOnly`; source cells contribute
`trusted`, text and tags, and `rendered` when the source is markdown. -/
def NotebookModel.createMarkdownCell (nb : NotebookModel) (source : Option CellModel) : CellModel :=
  let base := freshCell CellType.markdown
  let cell := { base with mimetype := "text/x-ipythongfm", readOnly := nb.readOnly,
                          trusted := true }
  match source with
  | none => cell
  | some s =>
    let cell := { cell with trusted := s.trusted, text := s.text, tags := s.tags }
    if s.type = CellType.markdown then { cell with rendered := s.rendered } else cell

/-- `NotebookModel.createRawCell(source?)`: fresh raw cell with the
editor default mimetype and the notebook's `readOnly`; source cells
contribute `trusted`, text and tags, and `format` when the source is
raw. -/
def NotebookModel.createRawCell (nb : NotebookModel) (source : Option CellModel) : CellModel :=
  let base := freshCell CellType.raw
  let cell := { base with readOnly := nb.readOnly, trusted := true }
  match source with
  | none => cell
  | some s =>
    let cell := { cell with trusted := s.trusted, text := s.text, tags := s.tags }
    if s.type = CellType.raw then { cell with format := s.format } else cell


/-- JavaScript `String.prototype.trim`: strip leading and trailing
whitespace (embedded structurally over the character list so that it
evaluates on concrete inputs). -/
def jsTrim (s : String) : String :=
  ⟨((s.data.dropWhile Char.isWhitespace).reverse.dropWhile Char.isWhitespace).reverse⟩

/-- The fields of the execute request issued by `executeCell`. -/
structure ExecRequest where
  code : String
  silent : Bool
  store_history : Bool
  stop_on_error : Bool
  allow_stdin : Bool
  deriving Repr, DecidableEq

/-- `NotebookModel.executeCell(cell)`, acting on the cell at list index
`j` (the source passes the cell object; cells are addressed by index in
this embedding).  Returns the new model state and the execute request
sent to the session kernel, `none` when no request is sent.  The
synchronous effects are embedded: read-only and empty-input early
returns, the running prompt, `output.clear(false)` and the trusted flag;
the asynchronous `onIOPub`/`onReply` handlers fire after this call
returns and are outside this function. -/
def NotebookModel.executeCell (nb : NotebookModel) (j : Nat) : NotebookModel × Option ExecRequest :=
  if nb.readOnly then (nb, none) else
  match nb.cells.get? j with
  | none => (nb, none)
  | some cell =>
    if jsTrim cell.text = "" then
      ({ nb with cells := nb.cells.set j { cell with prompt := "In [ ]:" } }, none)
    else
      match nb.session with
      | none => (nb, none)
      | some _ =>
        let cell2 := { cell with prompt := "In [*]:",
                                 output := { cell.output with outputs := [] },
                                 trusted := true }
        ({ nb with cells := nb.cells.set j cell2 },
         some { code := cell.text, silent := false, store_history := true,
                stop_on_error := true, allow_stdin := true })

/-- `ObservableList.get` index normalization (external collaborator,
spec section 3): a negative index addresses from the end (`-1` is the
last element); the result is `none` when the normalized index is out of
range. -/
def obsNorm (len : Nat) (i : Int) : Option Nat :=
  let j := if i < 0 then i + (len : Int) else i
  if 0 ≤ j ∧ j < (len : Int) then some j.toNat else none

/-- The variant dispatch inside `runActiveCell`, acting on the active
cell at resolved index `j`: markdown cells get trusted and rendered,
code cells go through `executeCell`, any other cell (raw) only gets
trusted. -/
def runDispatch (nb : NotebookModel) (j : Nat) (cell : CellModel) :
    NotebookModel × Option ExecRequest :=
  match cell.type with
  | CellType.markdown =>
    ({ nb with cells := nb.cells.set j { cell with trusted := true, rendered := true } },
     none)
  | CellType.code => nb.executeCell j
  | CellType.raw =>
    ({ nb with cells := nb.cells.set j { cell with trusted := true } }, none)

/-- The tail of `runActiveCell`, after the variant dispatch: if the
active cell is the last cell, create a fresh code cell, `cells.add` it
(whose Add event sets `activeCellIndex` to the new index) and set the
mode property to edit; otherwise `activeCellIndex += 1` (re-clamped by
the setter). -/
def runAdvance (p : NotebookModel × Option ExecRequest) :
    NotebookModel × Option ExecRequest :=
  let nb1 := p.1
  if nb1.activeCellIndex = (nb1.cells.length : Int) - 1 then
    let nb2 := nb1.addCell (nb1.createCodeCell none)
    ({ nb2 with mode := NotebookMode.edit }, p.2)
  else
    (nb1.setActiveCellIndex (nb1.activeCellIndex + 1), p.2)

/-- `NotebookModel.runActiveCell()`: no-op when read-only or when
`cells.get(activeCellIndex)` yields no cell; otherwise the variant
dispatch (`runDispatch`) followed by the append-or-advance step
(`runAdvance`). -/
def NotebookModel.runActiveCell (nb : NotebookModel) : NotebookModel × Option ExecRequest :=
  if nb.readOnly then (nb, none) else
  match obsNorm nb.cells.length nb.activeCellIndex with
  | none => (nb, none)
  | some j =>
    match nb.cells.get? j with
    | none => (nb, none)
    | some cell => runAdvance (runDispatch nb j cell)

/-- Modelled from the spec: the `source` field of a persisted cell,
either a single string or an ordered sequence of line strings. -/
inductive CellSource where
  | str (s : String)
  | lines (ls : List String)
  deriving Repr, DecidableEq

/-- Whether the source is a single string. -/
def CellSource.isStr : CellSource → Bool
  | .str _ => true
  | _ => false

/-- The text a `CellSource` deserializes to: a line sequence is joined
with a newline (`source.join('\n')` in `deserializeCell`). -/
def CellSource.toText : CellSource → String
  | .str s => s
  | .lines ls => String.intercalate "\n" ls

/-- Modelled from the spec: a persisted cell (`ICell` of nbformat.ts,
not under src/).  Common fields `source`, `metadata.tags`,
`metadata.name`; raw cells add `metadata.format`; code cells add
`metadata.collapsed`, `metadata.scrolled`, `outputs` and
`execution_count`. -/
inductive DocCell where
  | markdown (source : CellSource) (tags : List String) (name : Option String)
  | raw (source : CellSource) (tags : List String) (name : Option String)
        (format : Option String)
  | code (source : CellSource) (tags : List String) (name : Option String)
         (collapsed : Bool) (scrolled : Bool) (execution_count : Option Int)
         (outputs : List Output)
  deriving Repr, DecidableEq

/-- The `source` field of a persisted cell. -/
def DocCell.source : DocCell → CellSource
  | .markdown s _ _ => s
  | .raw s _ _ _ => s
  | .code s _ _ _ _ _ _ => s

/-- The `metadata.tags` field of a persisted cell. -/
def DocCell.tags : DocCell → List String
  | .markdown _ t _ => t
  | .raw _ t _ _ => t
  | .code _ t _ _ _ _ _ => t

/-- The `metadata.name` field of a persisted cell. -/
def DocCell.name : DocCell → Option String
  | .markdown _ _ n => n
  | .raw _ _ n _ => n
  | .code _ _ n _ _ _ _ => n

/-- Modelled from the spec: the current major nbformat version emitted by
`serialize` (`MAJOR_VERSION` of nbformat.ts, not under src/). -/
def MAJOR_VERSION : Nat := 4

/-- Modelled from the spec: the current minor nbformat version emitted by
`serialize` (`MINOR_VERSION` of nbformat.ts, not under src/). -/
def MINOR_VERSION : Nat := 0

/-- Modelled from the spec: a persisted notebook document
(`INotebookContent`). -/
structure NotebookContent where
  cells : List DocCell
  metadata : NotebookMetadata
  nbformat : Nat
  nbformat_minor : Nat
  deriving Repr, DecidableEq

/-- `serializeCell(cell)`: the common fields are the editor text (always
emitted as a single string), the cell type and `metadata.tags`/`name`;
raw cells add `metadata.format`; code cells add `metadata.scrolled`,
`metadata.collapsed`, the output list (copied in order) and
`execution_count`. -/
def serializeCell (cell : CellModel) : DocCell :=
  match cell.type with
  | CellType.markdown => DocCell.markdown (.str cell.text) cell.tags cell.name
  | CellType.raw => DocCell.raw (.str cell.text) cell.tags cell.name cell.format
  | CellType.code =>
      DocCell.code (.str cell.text) cell.tags cell.name cell.collapsed cell.scrolled
        cell.executionCount cell.output.outputs

/-- `serialize(nb)`: serialize every cell in order and attach the
notebook metadata and the current nbformat version. -/
def serialize (nb : NotebookModel) : NotebookContent :=
  { cells := nb.cells.map serializeCell, metadata := nb.metadata,
    nbformat := MAJOR_VERSION, nbformat_minor := MINOR_VERSION }

/-- `deserializeCell(data, model)`: copy the joined source text, the tags
and the name into the model; code-cell models additionally receive
`collapsed`, `scrolled`, `execution_count` and each persisted output via
`model.output.add` (in order); raw-cell models receive
`metadata.format`.  The variant fields are guarded by the MODEL type;
`deserialize` only pairs a model with data of the same type, so the
mismatch branches (which in JavaScript would read undefined fields) are
never taken from `deserialize`. -/
def deserializeCell (data : DocCell) (model : CellModel) : CellModel :=
  let m := { model with text := data.source.toText, tags := data.tags, name := data.name }
  match m.type with
  | CellType.code =>
    match data with
    | DocCell.code _ _ _ collapsed scrolled execCount outs =>
      let m := { m with collapsed := collapsed, scrolled := scrolled,
                        executionCount := execCount }
      { m with output := outs.foldl OutputAreaModel.add m.output }
    | _ => m
  | CellType.raw =>
    match data with
    | DocCell.raw _ _ _ fmt => { m with format := fmt }
    | _ => { m with format := none }
  | CellType.markdown => m

/-- The factory `deserialize` selects for a persisted cell: markdown data
goes to `createMarkdownCell`, code data to `createCodeCell`, raw data to
`createRawCell` (each without a source cell). -/
def cellFactoryFor (nb : NotebookModel) (c : DocCell) : CellModel :=
  match c with
  | DocCell.markdown _ _ _ => nb.createMarkdownCell none
  | DocCell.code _ _ _ _ _ _ _ => nb.createCodeCell none
  | DocCell.raw _ _ _ _ => nb.createRawCell none

/-- One iteration of the `data.cells.forEach` loop in `deserialize`:
create the cell model with the factory matching the cell type, fill it
with `deserializeCell`, and `model.cells.add(cell)` (whose Add event sets
`activeCellIndex` to the new index). -/
def deserStep (nb : NotebookModel) (c : DocCell) : NotebookModel :=
  nb.addCell (deserializeCell c (cellFactoryFor nb c))

/-- `deserialize(data, model)`: clear the cell list (the Replace event
only disposes the old cells), run the forEach loop, then, when the list
is non-empty, assign `model.selectedCellIndex = 0` — a property that the
notebook model does not declare, recorded in the ghost field — and
finally copy the document metadata. -/
def deserialize (data : NotebookContent) (model : NotebookModel) : NotebookModel :=
  let model := { model with cells := [] }
  let model := data.cells.foldl deserStep model
  let model :=
    if model.cells.length ≠ 0 then { model with selectedCellIndex := some 0 } else model
  { model with metadata := data.metadata }

/-- `NotebookModel._save()`: serialize the notebook and hand it to the
contents manager under `this.session.notebookPath`.  The result `none`
models the TypeError thrown in JavaScript when `this.session` is
undefined (no attached session): the path read happens before the
contents manager is contacted.  On `some`, the returned request is what
is passed to `manager.save`; the asynchronous continuation clearing the
dirty flag on success is `saveResolve`. -/
def NotebookModel.saveDirect (nb : NotebookModel) : Option (String × NotebookContent) :=
  match nb.session with
  | none => none
  | some s => some (s.notebookPath, serialize nb)

/-- `NotebookModel.save()`: with no session or a disposed session, go to
`_save` directly; otherwise first copy the kernel spec display name, the
kernel name and the kernel language info into the metadata (the
asynchronous backend round trip is embedded as reads from the session
handle), then `_save`.  Returns the updated model paired with the
contents-manager request, or `none` for the thrown TypeError. -/
def NotebookModel.save (nb : NotebookModel) : Option (NotebookModel × String × NotebookContent) :=
  match nb.session with
  | none =>
    match nb.saveDirect with
    | none => none
    | some r => some (nb, r)
  | some s =>
    if s.isDisposed then
      match nb.saveDirect with
      | none => none
      | some r => some (nb, r)
    else
      let nb2 := { nb with metadata :=
        { nb.metadata with
            kernelspecDisplayName := s.kernelSpecDisplayName,
            kernelspecName := s.kernelName,
            languageInfoName := s.kernelLanguageInfoName } }
      match nb2.saveDirect with
      | none => none
      | some r => some (nb2, r)

/-- The `.then` continuation of `_save`: a successful persist clears the
dirty flag; a failed persist leaves the model untouched (dirty stays). -/
def saveResolve (nb : NotebookModel) (success : Bool) : NotebookModel :=
  if success then { nb with dirty := false } else nb

/-- A cell widget in the notebook cells layout: the backing cell model
and an identity token.  `NotebookWidget.createCell` constructs a fresh
widget (fresh token) for a cell model; a widget is "rebuilt" exactly
when a new token appears. -/
structure CellWidget where
  cell : CellModel
  wid : Nat
  deriving Repr, DecidableEq

/-- `NotebookWidget.createCell(cell)` (the widget factory), with `wid`
the fresh identity token of the new widget. -/
def createCellWidget (cell : CellModel) (wid : Nat) : CellWidget :=
  { cell := cell, wid := wid }

/-- `PanelLayout.childAt(i)` (external collaborator): the child at the
index, `undefined` (here `none`) when out of range. -/
def childAt (layout : List CellWidget) (i : Nat) : Option CellWidget :=
  layout.get? i

/-- `PanelLayout.removeChild(w)` (external collaborator): remove the
child from the layout; a no-op when the widget is not a child. -/
def removeChildW (layout : List CellWidget) (w : CellWidget) : List CellWidget :=
  layout.erase w

/-- `PanelLayout.insertChild(i, w)` (external collaborator): if the
widget is already a child it is moved; the index is clamped to the child
count. -/
def insertChild (layout : List CellWidget) (i : Nat) (w : CellWidget) : List CellWidget :=
  let l := layout.erase w
  l.take (min i l.length) ++ w :: l.drop (min i l.length)

/-- A single change event of the notebook cell list
(`IListChangedArgs`), as consumed by `NotebookWidget.onCellsChanged`. -/
inductive CellListChange where
  | add (newIndex : Nat) (newValue : CellModel)
  | move (oldIndex : Nat) (newIndex : Nat)
  | remove (oldIndex : Nat) (oldValue : CellModel)
  | replace (oldValues : List CellModel) (newValues : List CellModel)
  | set (newIndex : Nat) (oldValue : CellModel) (newValue : CellModel)
  deriving Repr, DecidableEq

/-- The loop of the Replace branch of `onCellsChanged`:
`for (let i = oldValues.length; i > 0; i--)` reads `childAt(i)`, removes
and disposes it.  `none` models the TypeError thrown when `childAt(i)`
is undefined (`widget.dispose()` on undefined); note the loop starts at
`oldValues.length`, not `oldValues.length - 1`. -/
def replaceLoop (layout : List CellWidget) : Nat → Option (List CellWidget)
  | 0 => some layout
  | Nat.succ k =>
    match childAt layout (k + 1) with
    | none => none
    | some w => replaceLoop (removeChildW layout w) k

/-- The trailing loop of the Replace branch: `layout.addChild(factory(v))`
for each new value, consuming fresh widget tokens. -/
def addFactories (layout : List CellWidget) (nextId : Nat) :
    List CellModel → List CellWidget × Nat
  | [] => (layout, nextId)
  | c :: rest => addFactories (layout ++ [createCellWidget c nextId]) (nextId + 1) rest

/-- `NotebookWidget.onCellsChanged(sender, args)`: the incremental widget
reconciliation.  `layout` is the child list of the cells layout,
`nextId` the supply of fresh widget tokens; the result is `none` when
the JavaScript handler would throw a TypeError (disposing an undefined
`childAt` result). -/
def onCellsChanged (layout : List CellWidget) (nextId : Nat) (args : CellListChange) :
    Option (List CellWidget × Nat) :=
  match args with
  | .add newIndex newValue =>
    some (insertChild layout newIndex (createCellWidget newValue nextId), nextId + 1)
  | .move oldIndex newIndex =>
    match childAt layout oldIndex with
    | some w => some (insertChild layout newIndex w, nextId)
    | none => none
  | .remove oldIndex _ =>
    match childAt layout oldIndex with
    | some w => some (removeChildW layout w, nextId)
    | none => none
  | .replace oldValues newValues =>
    match replaceLoop layout oldValues.length with
    | none => none
    | some l2 => some (addFactories l2 nextId newValues)
  | .set newIndex _ newValue =>
    match childAt layout newIndex with
    | some w =>
      some (insertChild (removeChildW layout w) newIndex (createCellWidget newValue nextId),
            nextId + 1)
    | none => none

/-- C1 (counterexample): the claim quantifies over every output area
whose last entry is a Stream, but an area with a pending deferred clear
(`clear(wait=true)` was called) wipes the list on the next `add` instead
of consolidating: adding Stream("stdout","b") to an area holding
Stream("stdout","a") with `_clearNext` set yields ["b"], not the
replaced entry Stream("stdout","ab"). -/
theorem C1_counterexample :
    ((⟨[Output.stream "stdout" "a"], true⟩ : OutputAreaModel).add
        (Output.stream "stdout" "b")).outputs = [Output.stream "stdout" "b"] ∧
    ([Output.stream "stdout" "b"] : List Output) ≠
      ([Output.stream "stdout" "a"] : List Output).dropLast
        ++ [Output.stream "stdout" ("a" ++ "b")] := by
  decide

/-- C1 (amended): for every output area with NO pending deferred clear
whose last list entry is a Stream with channel name n, adding a Stream
output of the same channel name replaces the last entry in place by a
Stream whose text is the old text followed by the new text, and the list
does not grow; in particular, adding Stream("stdout","a") then
Stream("stdout","b") to a fresh area yields the single entry
Stream("stdout","ab"), while Stream("stdout","a") then
Stream("stderr","b") yields two entries. -/
theorem C1_stream_consolidation (m : OutputAreaModel) (n t t2 : String)
    (hclear : m.clearNext = false)
    (hlast : m.outputs.getLast? = some (Output.stream n t)) :
    (m.add (Output.stream n t2)).outputs
        = m.outputs.dropLast ++ [Output.stream n (t ++ t2)] ∧
    (m.add (Output.stream n t2)).outputs.length = m.outputs.length ∧
    ((OutputAreaModel.fresh.add (Output.stream "stdout" "a")).add
        (Output.stream "stdout" "b")).outputs = [Output.stream "stdout" "ab"] ∧
    ((OutputAreaModel.fresh.add (Output.stream "stdout" "a")).add
        (Output.stream "stderr" "b")).outputs
      = [Output.stream "stdout" "a", Output.stream "stderr" "b"] := by
  have hne : m.outputs ≠ [] := by
    intro h
    rw [h] at hlast
    simp at hlast
  have houts : (m.add (Output.stream n t2)).outputs
      = m.outputs.dropLast ++ [Output.stream n (t ++ t2)] := by
    unfold OutputAreaModel.add
    simp [hclear, hlast]
  refine ⟨houts, ?_, by decide, by decide⟩
  rw [houts]
  have hpos : 1 ≤ m.outputs.length := by
    cases hm : m.outputs with
    | nil => exact absurd hm hne
    | cons a l => simp
  simp [List.length_dropLast]
  omega

/-- C1 (witness): the amended consolidation theorem evaluated on a
concrete one-entry area. -/
theorem C1_witness :
    ((⟨[Output.stream "stdout" "x"], false⟩ : OutputAreaModel).add
        (Output.stream "stdout" "y")).outputs = [Output.stream "stdout" "xy"] := by
  have h := C1_stream_consolidation ⟨[Output.stream "stdout" "x"], false⟩ "stdout" "x" "y"
    (by decide) (by decide)
  exact h.1.trans (by decide)

/-- C2 (counterexample): the claim says the `add(X)` following
`clear(wait=true)` leaves a list containing only X, for every output X;
but an output of an unrecognized kind (for example a forwarded status
message) is silently dropped by the `output_type` switch, leaving the
list empty. -/
theorem C2_counterexample :
    (((⟨[Output.stream "stdout" "a"], false⟩ : OutputAreaModel).clear true).add
        (Output.unknown "status")).outputs ≠ [Output.unknown "status"] := by
  decide

/-- C2 (amended): `clear(wait=true)` leaves the outputs list unchanged,
and the next `add(X)` first removes all existing outputs and then
processes X, so the resulting list is exactly [X] when the kind of X is
one of stream/execute_result/display_data/error and empty otherwise
(X silently dropped); `clear(wait=false)` empties the list
immediately. -/
theorem C2_deferred_clear (m : OutputAreaModel) (X : Output) :
    (m.clear true).outputs = m.outputs ∧
    ((m.clear true).add X).outputs = (if X.isRecognized then [X] else []) ∧
    (m.clear false).outputs = [] := by
  refine ⟨by simp [OutputAreaModel.clear], ?_, by simp [OutputAreaModel.clear]⟩
  cases X <;>
    simp [OutputAreaModel.clear, OutputAreaModel.add, OutputAreaModel.appendRecognized,
      Output.isRecognized]

/-- C3 (code evaluation at the failing input): the Replace branch of
`onCellsChanged` iterates `for (let i = oldValues.length; i > 0; i--)`
over `childAt(i)`, starting one past the last valid child index.  On a
widget whose layout holds one child and a Replace event carrying that
one old cell (the event `cells.clear()` emits), the first iteration
reads `childAt(1)` — undefined — and throws a TypeError disposing it;
the handler never reaches a state where the child count equals the
model length 0. -/
theorem C3_replace_desync :
    onCellsChanged [createCellWidget (freshCell CellType.code) 0] 1
        (CellListChange.replace [freshCell CellType.code] []) = none ∧
    onCellsChanged
        [createCellWidget (freshCell CellType.code) 0,
         createCellWidget (freshCell CellType.markdown) 1] 2
        (CellListChange.replace [freshCell CellType.code, freshCell CellType.markdown] [])
      = none := by
  decide

/-- A freshly constructed notebook model: empty observable cell list,
`defaultMimetype` property default "text/x-ipython", no session, the
remaining properties unset (embedded as their falsy/zero values; every
operation below overwrites `activeCellIndex` before reading it). -/
def emptyNotebook : NotebookModel :=
  { cells := [], activeCellIndex := 0, mode := NotebookMode.command,
    defaultMimetype := "text/x-ipython", readOnly := false, dirty := false,
    metadata := { kernelspecName := "", kernelspecDisplayName := "",
                  languageInfoName := "" },
    session := none, selectedCellIndex := none }

lemma setActiveFlags_length (v : Int) (i : Nat) (l : List CellModel) :
    (setActiveFlags v i l).length = l.length := by
  induction l generalizing i with
  | nil => rfl
  | cons c cs ih => simp [setActiveFlags, ih]

lemma setActiveFlags_get? (v : Int) (i j : Nat) (l : List CellModel) :
    (setActiveFlags v i l).get? j
      = (l.get? j).map (fun c => { c with active := decide (v = ((i + j : Nat) : Int)) }) := by
  induction l generalizing i j with
  | nil => simp [setActiveFlags]
  | cons c cs ih =>
    cases j with
    | zero => simp [setActiveFlags]
    | succ k =>
      show (setActiveFlags v (i + 1) cs).get? k
          = (cs.get? k).map (fun c => { c with active := decide (v = ((i + (k + 1) : Nat) : Int)) })
      rw [ih (i + 1) k]
      have harith : (i + 1 + k : Nat) = (i + (k + 1) : Nat) := by omega
      rw [harith]

lemma setActiveFlags_countP (v : Int) (i : Nat) (l : List CellModel) :
    (setActiveFlags v i l).countP (fun c => c.active)
      = if (i : Int) ≤ v ∧ v < (i : Int) + l.length then 1 else 0 := by
  induction l generalizing i with
  | nil =>
    have hno : ¬((i : Int) ≤ v ∧ v < (i : Int) + ([] : List CellModel).length) := by
      simp only [List.length_nil, Nat.cast_zero, add_zero]
      omega
    simp only [setActiveFlags, List.countP_nil, if_neg hno]
  | cons c cs ih =>
    simp only [setActiveFlags, List.countP_cons, ih (i + 1), decide_eq_true_eq,
      List.length_cons]
    push_cast
    split_ifs <;> omega

lemma length_eraseIdx_lt {α : Type} (l : List α) (i : Nat) (h : i < l.length) :
    (l.eraseIdx i).length = l.length - 1 := by
  induction l generalizing i with
  | nil => simp at h
  | cons a l' ih =>
    cases i with
    | zero => simp [List.eraseIdx]
    | succ k =>
      simp only [List.length_cons, Nat.succ_lt_succ_iff] at h
      show (a :: l'.eraseIdx k).length = l'.length + 1 - 1
      rw [List.length_cons, ih k h]
      omega

/-- The active-cell invariant of the spec: `activeCellIndex` names a
valid position, exactly one cell has `active = true`, and it is the cell
at `activeCellIndex`. -/
def NotebookModel.activeOk (nb : NotebookModel) : Prop :=
  ∃ k : Nat, nb.activeCellIndex = (k : Int) ∧ k < nb.cells.length ∧
    nb.cells.countP (fun c => c.active) = 1 ∧
    ∀ j c, nb.cells.get? j = some c → (c.active = true ↔ j = k)

lemma clampIndex_bounds (v : Int) (L : Nat) (h : 1 ≤ L) :
    0 ≤ clampIndex v L ∧ clampIndex v L < (L : Int) := by
  unfold clampIndex
  have h1 : (1 : Int) ≤ (L : Int) := by exact_mod_cast h
  constructor
  · have hv : (0 : Int) ≤ max v 0 := le_max_right _ _
    have hL : (0 : Int) ≤ (L : Int) - 1 := by omega
    exact le_min hv hL
  · have : min (max v 0) ((L : Int) - 1) ≤ (L : Int) - 1 := min_le_right _ _
    omega

lemma setActiveCellIndex_activeOk (nb : NotebookModel) (v : Int)
    (h : 1 ≤ nb.cells.length) : (nb.setActiveCellIndex v).activeOk := by
  have hb := clampIndex_bounds v nb.cells.length h
  have h1 := hb.1
  have h2 := hb.2
  refine ⟨(clampIndex v nb.cells.length).toNat, ?_, ?_, ?_, ?_⟩
  · show clampIndex v nb.cells.length = ((clampIndex v nb.cells.length).toNat : Int)
    omega
  · show (clampIndex v nb.cells.length).toNat
        < (setActiveFlags (clampIndex v nb.cells.length) 0 nb.cells).length
    rw [setActiveFlags_length]
    omega
  · show (setActiveFlags (clampIndex v nb.cells.length) 0 nb.cells).countP
        (fun c => c.active) = 1
    rw [setActiveFlags_countP]
    split_ifs with hcond
    · rfl
    · push_cast at hcond
      omega
  · intro j c hj
    have hj2 : (setActiveFlags (clampIndex v nb.cells.length) 0 nb.cells).get? j
        = some c := hj
    rw [setActiveFlags_get?] at hj2
    match hc0 : nb.cells.get? j with
    | none => rw [hc0] at hj2; simp at hj2
    | some c0 =>
      rw [hc0] at hj2
      simp only [Option.map_some'] at hj2
      have hc := Option.some.inj hj2
      subst hc
      show decide (clampIndex v nb.cells.length = ((0 + j : Nat) : Int)) = true
          ↔ j = (clampIndex v nb.cells.length).toNat
      simp only [decide_eq_true_eq]
      constructor
      · intro he
        push_cast at he
        omega
      · intro he
        subst he
        push_cast
        omega

/-- C4: for every notebook with at least one cell, after setting
`activeCellIndex` to any value, adding a cell, or removing a cell,
exactly one cell has `active = true` and it is the cell at
`activeCellIndex`; moreover the setter clamps the written value into
`[0, length - 1]` and rewrites every cell's active flag to
`value === i`. -/
theorem C4_activeCellIndex_invariant (nb : NotebookModel) (v : Int) (c : CellModel)
    (i : Nat) :
    (1 ≤ nb.cells.length → (nb.setActiveCellIndex v).activeOk) ∧
    (nb.addCell c).activeOk ∧
    (i < nb.cells.length → 2 ≤ nb.cells.length → (nb.removeCellAt i).activeOk) ∧
    (nb.setActiveCellIndex v).activeCellIndex = clampIndex v nb.cells.length ∧
    (∀ j cj, (nb.setActiveCellIndex v).cells.get? j = some cj →
      cj.active = decide ((nb.setActiveCellIndex v).activeCellIndex = (j : Int))) := by
  refine ⟨fun h => setActiveCellIndex_activeOk nb v h, ?_, ?_, rfl, ?_⟩
  · exact setActiveCellIndex_activeOk { nb with cells := nb.cells ++ [c] }
      ((({ nb with cells := nb.cells ++ [c] } : NotebookModel).cells.length : Int) - 1)
      (by simp)
  · intro hi h2
    unfold NotebookModel.removeCellAt
    rw [if_pos hi]
    refine setActiveCellIndex_activeOk _ _ ?_
    show 1 ≤ (nb.cells.eraseIdx i).length
    rw [length_eraseIdx_lt nb.cells i hi]
    omega
  · intro j cj hj
    have hj2 : (setActiveFlags (clampIndex v nb.cells.length) 0 nb.cells).get? j
        = some cj := hj
    rw [setActiveFlags_get?] at hj2
    match hc0 : nb.cells.get? j with
    | none => rw [hc0] at hj2; simp at hj2
    | some c0 =>
      rw [hc0] at hj2
      simp only [Option.map_some'] at hj2
      have hc := Option.some.inj hj2
      subst hc
      show decide (clampIndex v nb.cells.length = ((0 + j : Nat) : Int))
          = decide (clampIndex v nb.cells.length = (j : Int))
      simp

/-- A two-cell notebook used to evaluate the invariant theorems on a
concrete state. -/
def nbTwoCells : NotebookModel :=
  { emptyNotebook with
      cells := [{ freshCell CellType.code with active := true },
                freshCell CellType.markdown],
      activeCellIndex := 0 }

/-- C4 (witness): the invariant theorem evaluated on a concrete
two-cell notebook for each of the three mutations. -/
theorem C4_witness :
    (nbTwoCells.setActiveCellIndex 5).activeOk ∧
    (nbTwoCells.addCell (freshCell CellType.raw)).activeOk ∧
    (nbTwoCells.removeCellAt 0).activeOk := by
  have h := C4_activeCellIndex_invariant nbTwoCells 5 (freshCell CellType.raw) 0
  exact ⟨h.1 (by decide), h.2.1, h.2.2.1 (by decide) (by decide)⟩

lemma get?_set_self {α : Type} (l : List α) (j : Nat) (a : α) (h : j < l.length) :
    (l.set j a).get? j = some a := by
  induction l generalizing j with
  | nil => simp at h
  | cons b l' ih =>
    cases j with
    | zero => rfl
    | succ k =>
      simp only [List.length_cons, Nat.succ_lt_succ_iff] at h
      exact ih k h

/-- C9: for every non-read-only notebook and every code cell whose input
text is empty or whitespace-only, `executeCell` sets the cell's input
prompt to the idle marker and returns without sending any request to the
session and without modifying the cell's output list. -/
theorem C9_executeCell_empty (nb : NotebookModel) (j : Nat) (cell : CellModel)
    (hro : nb.readOnly = false)
    (hget : nb.cells.get? j = some cell)
    (htype : cell.type = CellType.code)
    (hempty : jsTrim cell.text = "") :
    nb.executeCell j
        = ({ nb with cells := nb.cells.set j { cell with prompt := "In [ ]:" } }, none) ∧
    (((nb.executeCell j).1.cells.get? j).map (fun c => c.output.outputs))
        = some cell.output.outputs := by
  have heq : nb.executeCell j
      = ({ nb with cells := nb.cells.set j { cell with prompt := "In [ ]:" } }, none) := by
    unfold NotebookModel.executeCell
    rw [hro, hget]
    simp [hempty]
  refine ⟨heq, ?_⟩
  rw [heq]
  have hlt : j < nb.cells.length := by
    by_contra hge
    rw [List.get?_eq_none.2 (by omega)] at hget
    exact Option.noConfusion hget
  show ((nb.cells.set j { cell with prompt := "In [ ]:" }).get? j).map
      (fun c => c.output.outputs) = some cell.output.outputs
  rw [get?_set_self nb.cells j _ hlt]
  rfl

/-- A one-cell notebook whose code cell has whitespace-only input, used
to evaluate `executeCell`. -/
def nbBlankCode : NotebookModel :=
  { emptyNotebook with
      cells := [{ freshCell CellType.code with text := "  ", active := true }],
      activeCellIndex := 0 }

/-- C9 (witness): the empty-input theorem evaluated on a concrete
notebook holding one whitespace-only code cell. -/
theorem C9_witness :
    (nbBlankCode.executeCell 0).2 = none ∧
    (((nbBlankCode.executeCell 0).1.cells.get? 0).map (fun c => c.output.outputs))
        = some [] := by
  have h := C9_executeCell_empty nbBlankCode 0
    { freshCell CellType.code with text := "  ", active := true }
    (by decide) (by decide) (by decide) (by decide)
  constructor
  · rw [h.1]
  · exact h.2

/-- C10: setting `readOnly = true` on a notebook sets `readOnly = true`
on every cell currently in the cell list, and every cell created through
the notebook's factory methods while the notebook is read-only also has
`readOnly = true` (with or without a source cell). -/
theorem C10_readOnly_cascade (nb : NotebookModel) (src : Option CellModel) :
    (∀ c ∈ (nb.setReadOnly true).cells, c.readOnly = true) ∧
    (nb.setReadOnly true).readOnly = true ∧
    (∀ nb2 : NotebookModel, nb2.readOnly = true →
      (nb2.createCodeCell src).readOnly = true ∧
      (nb2.createMarkdownCell src).readOnly = true ∧
      (nb2.createRawCell src).readOnly = true) := by
  refine ⟨?_, rfl, ?_⟩
  · intro c hc
    have hc2 : c ∈ nb.cells.map (fun c => { c with readOnly := true }) := hc
    obtain ⟨c0, _, hco⟩ := List.mem_map.1 hc2
    rw [← hco]
  · intro nb2 h2
    refine ⟨?_, ?_, ?_⟩
    · unfold NotebookModel.createCodeCell
      cases src with
      | none => simpa using h2
      | some s =>
        by_cases hs : s.type = CellType.code <;> simp [hs, h2]
    · unfold NotebookModel.createMarkdownCell
      cases src with
      | none => simpa using h2
      | some s =>
        by_cases hs : s.type = CellType.markdown <;> simp [hs, h2]
    · unfold NotebookModel.createRawCell
      cases src with
      | none => simpa using h2
      | some s =>
        by_cases hs : s.type = CellType.raw <;> simp [hs, h2]

/-- C10 (witness): the cascade theorem evaluated on the concrete
two-cell notebook; the factory is exercised on the read-only state it
produces. -/
theorem C10_witness :
    (((nbTwoCells.setReadOnly true).createCodeCell none).readOnly = true) ∧
    (((nbTwoCells.setReadOnly true).createRawCell none).readOnly = true) := by
  have h := C10_readOnly_cascade nbTwoCells (none : Option CellModel)
  have h2 := h.2.2 (nbTwoCells.setReadOnly true) h.2.1
  exact ⟨h2.1, h2.2.2⟩

lemma executeCell_frame (nb : NotebookModel) (j : Nat) :
    (nb.executeCell j).1.cells.length = nb.cells.length ∧
    (nb.executeCell j).1.activeCellIndex = nb.activeCellIndex ∧
    (nb.executeCell j).1.mode = nb.mode ∧
    (nb.executeCell j).1.readOnly = nb.readOnly ∧
    (nb.executeCell j).1.defaultMimetype = nb.defaultMimetype := by
  unfold NotebookModel.executeCell
  split
  · exact ⟨rfl, rfl, rfl, rfl, rfl⟩
  · split
    · exact ⟨rfl, rfl, rfl, rfl, rfl⟩
    · split
      · exact ⟨by simp [List.length_set], rfl, rfl, rfl, rfl⟩
      · split
        · exact ⟨rfl, rfl, rfl, rfl, rfl⟩
        · exact ⟨by simp [List.length_set], rfl, rfl, rfl, rfl⟩

lemma runDispatch_frame (nb : NotebookModel) (j : Nat) (cell : CellModel) :
    (runDispatch nb j cell).1.cells.length = nb.cells.length ∧
    (runDispatch nb j cell).1.activeCellIndex = nb.activeCellIndex ∧
    (runDispatch nb j cell).1.mode = nb.mode ∧
    (runDispatch nb j cell).1.readOnly = nb.readOnly ∧
    (runDispatch nb j cell).1.defaultMimetype = nb.defaultMimetype := by
  unfold runDispatch
  match cell.type with
  | CellType.markdown => exact ⟨by simp [List.length_set], rfl, rfl, rfl, rfl⟩
  | CellType.code => exact executeCell_frame nb j
  | CellType.raw => exact ⟨by simp [List.length_set], rfl, rfl, rfl, rfl⟩

lemma obsNorm_of_nonneg (len : Nat) (i : Int) (h0 : 0 ≤ i) (h1 : i < (len : Int)) :
    obsNorm len i = some i.toNat := by
  unfold obsNorm
  have hneg : ¬ i < 0 := by omega
  simp only [hneg, if_false]
  rw [if_pos ⟨h0, h1⟩]

lemma addCell_length (nb : NotebookModel) (c : CellModel) :
    (nb.addCell c).cells.length = nb.cells.length + 1 := by
  show (setActiveFlags _ 0 (nb.cells ++ [c])).length = _
  rw [setActiveFlags_length, List.length_append]
  rfl

lemma addCell_clamp (nb : NotebookModel) (c : CellModel) :
    clampIndex (((nb.cells ++ [c]).length : Int) - 1) (nb.cells ++ [c]).length
      = (nb.cells.length : Int) := by
  unfold clampIndex
  simp only [List.length_append, List.length_singleton]
  push_cast
  omega

lemma addCell_activeCellIndex (nb : NotebookModel) (c : CellModel) :
    (nb.addCell c).activeCellIndex = (nb.cells.length : Int) := by
  show clampIndex (((nb.cells ++ [c]).length : Int) - 1) (nb.cells ++ [c]).length = _
  exact addCell_clamp nb c

lemma addCell_mode (nb : NotebookModel) (c : CellModel) :
    (nb.addCell c).mode = nb.mode := rfl

lemma addCell_get_last (nb : NotebookModel) (c : CellModel) :
    (nb.addCell c).cells.get? nb.cells.length = some { c with active := true } := by
  show (setActiveFlags
      (clampIndex (((nb.cells ++ [c]).length : Int) - 1) (nb.cells ++ [c]).length)
      0 (nb.cells ++ [c])).get? nb.cells.length = _
  rw [setActiveFlags_get?, addCell_clamp]
  have hg : (nb.cells ++ [c]).get? nb.cells.length = some c := by
    rw [List.get?_append_right (le_refl _)]
    simp
  rw [hg]
  simp only [Option.map_some']
  congr 1
  have hd : decide ((nb.cells.length : Int) = ((0 + nb.cells.length : Nat) : Int)) = true := by
    simp
  rw [hd]

lemma setActiveCellIndex_length (nb : NotebookModel) (v : Int) :
    (nb.setActiveCellIndex v).cells.length = nb.cells.length := by
  show (setActiveFlags (clampIndex v nb.cells.length) 0 nb.cells).length = _
  exact setActiveFlags_length _ _ _

lemma clampIndex_eq_self (w : Int) (L : Nat) (h0 : 0 ≤ w) (h1 : w ≤ (L : Int) - 1) :
    clampIndex w L = w := by
  unfold clampIndex
  omega

lemma runActiveCell_eq (nb : NotebookModel) (cell : CellModel)
    (hro : nb.readOnly = false)
    (h0 : 0 ≤ nb.activeCellIndex) (h1 : nb.activeCellIndex < (nb.cells.length : Int))
    (hg : nb.cells.get? nb.activeCellIndex.toNat = some cell) :
    nb.runActiveCell = runAdvance (runDispatch nb nb.activeCellIndex.toNat cell) := by
  unfold NotebookModel.runActiveCell
  simp only [hro, Bool.false_eq_true, if_false, obsNorm_of_nonneg _ _ h0 h1, hg]

/-- C5: on every non-read-only notebook whose active cell is the last
cell, `runActiveCell` appends exactly one fresh code cell (empty text,
no execution count) to the end of the list and puts the notebook in
edit mode with the new cell active; when the active cell is not the
last cell, `activeCellIndex` advances by one instead and the list keeps
its length. -/
theorem C5_runActiveCell (nb : NotebookModel)
    (hro : nb.readOnly = false) (hlen : 1 ≤ nb.cells.length) :
    (nb.activeCellIndex = (nb.cells.length : Int) - 1 →
      ((nb.runActiveCell).1.cells.length = nb.cells.length + 1 ∧
       (nb.runActiveCell).1.mode = NotebookMode.edit ∧
       (nb.runActiveCell).1.activeCellIndex = (nb.cells.length : Int) ∧
       ∃ c, (nb.runActiveCell).1.cells.get? nb.cells.length = some c ∧
            c.type = CellType.code ∧ c.text = "" ∧ c.executionCount = none ∧
            c.active = true)) ∧
    (0 ≤ nb.activeCellIndex → nb.activeCellIndex < (nb.cells.length : Int) - 1 →
      ((nb.runActiveCell).1.cells.length = nb.cells.length ∧
       (nb.runActiveCell).1.activeCellIndex = nb.activeCellIndex + 1)) := by
  constructor
  · intro hidx
    have h0 : 0 ≤ nb.activeCellIndex := by rw [hidx]; omega
    have h1 : nb.activeCellIndex < (nb.cells.length : Int) := by rw [hidx]; omega
    have hjlt : nb.activeCellIndex.toNat < nb.cells.length := by omega
    obtain ⟨cell, hg⟩ : ∃ cell, nb.cells.get? nb.activeCellIndex.toNat = some cell := by
      cases hc : nb.cells.get? nb.activeCellIndex.toNat with
      | none =>
        rw [List.get?_eq_none] at hc
        omega
      | some cell => exact ⟨cell, rfl⟩
    have hrun := runActiveCell_eq nb cell hro h0 h1 hg
    have hf := runDispatch_frame nb nb.activeCellIndex.toNat cell
    have hcond : (runDispatch nb nb.activeCellIndex.toNat cell).1.activeCellIndex
        = ((runDispatch nb nb.activeCellIndex.toNat cell).1.cells.length : Int) - 1 := by
      rw [hf.1, hf.2.1, hidx]
    have hadv : runAdvance (runDispatch nb nb.activeCellIndex.toNat cell)
        = ({ (runDispatch nb nb.activeCellIndex.toNat cell).1.addCell
              ((runDispatch nb nb.activeCellIndex.toNat cell).1.createCodeCell none)
              with mode := NotebookMode.edit },
           (runDispatch nb nb.activeCellIndex.toNat cell).2) := by
      show (if (runDispatch nb nb.activeCellIndex.toNat cell).1.activeCellIndex
            = ((runDispatch nb nb.activeCellIndex.toNat cell).1.cells.length : Int) - 1 then _
          else _) = _
      rw [if_pos hcond]
    rw [hrun, hadv]
    refine ⟨?_, rfl, ?_, ?_⟩
    · show ((runDispatch nb nb.activeCellIndex.toNat cell).1.addCell
          ((runDispatch nb nb.activeCellIndex.toNat cell).1.createCodeCell none)).cells.length
          = nb.cells.length + 1
      rw [addCell_length, hf.1]
    · show ((runDispatch nb nb.activeCellIndex.toNat cell).1.addCell
          ((runDispatch nb nb.activeCellIndex.toNat cell).1.createCodeCell none)).activeCellIndex
          = (nb.cells.length : Int)
      rw [addCell_activeCellIndex, hf.1]
    · refine ⟨{ (runDispatch nb nb.activeCellIndex.toNat cell).1.createCodeCell none
          with active := true }, ?_, rfl, rfl, rfl, rfl⟩
      show ((runDispatch nb nb.activeCellIndex.toNat cell).1.addCell
          ((runDispatch nb nb.activeCellIndex.toNat cell).1.createCodeCell none)).cells.get?
          nb.cells.length = _
      rw [← hf.1]
      exact addCell_get_last _ _
  · intro h0 h2
    have h1 : nb.activeCellIndex < (nb.cells.length : Int) := by omega
    have hjlt : nb.activeCellIndex.toNat < nb.cells.length := by omega
    obtain ⟨cell, hg⟩ : ∃ cell, nb.cells.get? nb.activeCellIndex.toNat = some cell := by
      cases hc : nb.cells.get? nb.activeCellIndex.toNat with
      | none =>
        rw [List.get?_eq_none] at hc
        omega
      | some cell => exact ⟨cell, rfl⟩
    have hrun := runActiveCell_eq nb cell hro h0 h1 hg
    have hf := runDispatch_frame nb nb.activeCellIndex.toNat cell
    have hcond : ¬ ((runDispatch nb nb.activeCellIndex.toNat cell).1.activeCellIndex
        = ((runDispatch nb nb.activeCellIndex.toNat cell).1.cells.length : Int) - 1) := by
      rw [hf.1, hf.2.1]
      omega
    have hadv : runAdvance (runDispatch nb nb.activeCellIndex.toNat cell)
        = ((runDispatch nb nb.activeCellIndex.toNat cell).1.setActiveCellIndex
            ((runDispatch nb nb.activeCellIndex.toNat cell).1.activeCellIndex + 1),
           (runDispatch nb nb.activeCellIndex.toNat cell).2) := by
      show (if (runDispatch nb nb.activeCellIndex.toNat cell).1.activeCellIndex
            = ((runDispatch nb nb.activeCellIndex.toNat cell).1.cells.length : Int) - 1 then _
          else _) = _
      rw [if_neg hcond]
    rw [hrun, hadv]
    constructor
    · show ((runDispatch nb nb.activeCellIndex.toNat cell).1.setActiveCellIndex
          ((runDispatch nb nb.activeCellIndex.toNat cell).1.activeCellIndex + 1)).cells.length
          = nb.cells.length
      rw [setActiveCellIndex_length, hf.1]
    · show clampIndex ((runDispatch nb nb.activeCellIndex.toNat cell).1.activeCellIndex + 1)
          (runDispatch nb nb.activeCellIndex.toNat cell).1.cells.length
          = nb.activeCellIndex + 1
      rw [hf.1, hf.2.1]
      exact clampIndex_eq_self _ _ (by omega) (by omega)

/-- A one-cell notebook holding a raw cell, the concrete instance named
by the claim. -/
def nbOneRaw : NotebookModel :=
  { emptyNotebook with
      cells := [{ freshCell CellType.raw with active := true }],
      activeCellIndex := 0 }

/-- C5 (witness): `runActiveCell` on the one-cell raw notebook yields a
two-cell notebook whose new cell is a code cell, mode edit,
`activeCellIndex = 1`. -/
theorem C5_witness :
    (nbOneRaw.runActiveCell).1.cells.length = 2 ∧
    (nbOneRaw.runActiveCell).1.mode = NotebookMode.edit ∧
    (nbOneRaw.runActiveCell).1.activeCellIndex = 1 ∧
    ((nbOneRaw.runActiveCell).1.cells.get? 1).map (fun c => c.type)
      = some CellType.code := by
  have h := (C5_runActiveCell nbOneRaw (by decide) (by decide)).1 (by decide)
  refine ⟨h.1, h.2.1, h.2.2.1, ?_⟩
  obtain ⟨c, hc, hct, _⟩ := h.2.2.2
  have hc1 : (nbOneRaw.runActiveCell).1.cells.get? 1 = some c := hc
  rw [hc1, Option.map_some', hct]

/-- A dirty one-cell notebook with no attached session. -/
def nbNoSession : NotebookModel :=
  { emptyNotebook with
      cells := [{ freshCell CellType.code with text := "1+1", active := true }],
      dirty := true }

/-- C8 (code evaluation at the failing input): on a notebook with no
attached session, `save()` takes the no-session branch into `_save`,
which reads `this.session.notebookPath` — a TypeError on an undefined
session (modelled as `none`) thrown before the contents manager is ever
contacted; the dirty flag is still set afterwards. -/
theorem C8_save_no_session_crash :
    nbNoSession.save = none ∧ nbNoSession.dirty = true := by
  decide

/-- A two-cell document used to evaluate `deserialize`. -/
def docTwoCells : NotebookContent :=
  { cells := [DocCell.markdown (CellSource.str "a") [] none,
              DocCell.markdown (CellSource.str "b") [] none],
    metadata := { kernelspecName := "python3", kernelspecDisplayName := "Python 3",
                  languageInfoName := "python" },
    nbformat := 4, nbformat_minor := 0 }

/-- C7 (code evaluation at the failing input): after `deserialize` of a
two-cell document into a fresh model, the LAST cell is the active one
(`activeCellIndex = 1`, its active flag set, cell 0 inactive): each
`cells.add` made the newly added cell active, and the final
`model.selectedCellIndex = 0` assignment only writes a property the
model does not declare (the ghost field), never `activeCellIndex`. -/
theorem C7_last_cell_active :
    (deserialize docTwoCells emptyNotebook).activeCellIndex = 1 ∧
    ((deserialize docTwoCells emptyNotebook).cells.get? 0).map (fun c => c.active)
      = some false ∧
    ((deserialize docTwoCells emptyNotebook).cells.get? 1).map (fun c => c.active)
      = some true ∧
    (deserialize docTwoCells emptyNotebook).selectedCellIndex = some 0 := by
  decide

/-- Whether two outputs are stream outputs on the same channel — the
trigger of the consolidation in `OutputAreaModel.add`. -/
def sameStream (a b : Output) : Bool :=
  match a, b with
  | .stream n _, .stream m _ => n == m
  | _, _ => false

/-- The negation of the consolidation trigger, as a relation for
adjacency chains. -/
def notSameStream (a b : Output) : Prop := sameStream a b = false

instance : DecidableRel notSameStream := fun a b =>
  inferInstanceAs (Decidable (sameStream a b = false))

/-- No two adjacent entries of the list are streams of the same channel
(computable form of the adjacency chain). -/
def streamChainOk : List Output → Bool
  | [] => true
  | [_] => true
  | a :: b :: rest => !(sameStream a b) && streamChainOk (b :: rest)

lemma chain'_of_streamChainOk (l : List Output) (h : streamChainOk l = true) :
    List.Chain' notSameStream l := by
  induction l with
  | nil => simp
  | cons a rest ih =>
    cases rest with
    | nil => simp
    | cons b rest2 =>
      simp only [streamChainOk, Bool.and_eq_true, Bool.not_eq_true'] at h
      exact List.chain'_cons.2 ⟨h.1, ih h.2⟩

/-- A persisted cell is round-trip well formed when its source is a
single string and, for code cells, all outputs are of recognized kinds
with no two adjacent outputs being streams of the same channel. -/
def DocCell.wellFormed : DocCell → Prop
  | .markdown src _ _ => src.isStr = true
  | .raw src _ _ _ => src.isStr = true
  | .code src _ _ _ _ _ outs =>
      src.isStr = true ∧ (∀ o ∈ outs, o.isRecognized = true) ∧
      streamChainOk outs = true

instance (c : DocCell) : Decidable c.wellFormed := by
  cases c with
  | markdown src t n => exact inferInstanceAs (Decidable (src.isStr = true))
  | raw src t n f => exact inferInstanceAs (Decidable (src.isStr = true))
  | code src t n cl sc e outs =>
      exact inferInstanceAs (Decidable (src.isStr = true
        ∧ (∀ o ∈ outs, o.isRecognized = true) ∧ streamChainOk outs = true))

lemma add_append_of_ok (acc : OutputAreaModel) (o : Output)
    (hc : acc.clearNext = false)
    (hrec : o.isRecognized = true)
    (hbound : ∀ x, acc.outputs.getLast? = some x → sameStream x o = false) :
    acc.add o = ⟨acc.outputs ++ [o], false⟩ := by
  obtain ⟨outs, cn⟩ := acc
  have hc2 : cn = false := hc
  subst hc2
  have happ : OutputAreaModel.appendRecognized ⟨outs, false⟩ o = ⟨outs ++ [o], false⟩ := by
    cases o <;> first
      | rfl
      | (exfalso; simp [Output.isRecognized] at hrec)
  cases hl : outs.getLast? with
  | none =>
    show OutputAreaModel.add ⟨outs, false⟩ o = _
    unfold OutputAreaModel.add
    simp only [Bool.false_eq_true, if_false, hl]
    exact happ
  | some last =>
    have hb := hbound last hl
    show OutputAreaModel.add ⟨outs, false⟩ o = _
    unfold OutputAreaModel.add
    simp only [Bool.false_eq_true, if_false, hl]
    cases last with
    | stream ln lt =>
      cases o with
      | stream n t =>
        have hne : ¬ (n = ln) := by
          simp [sameStream] at hb
          exact fun h => hb h.symm
        simpa [hne] using happ
      | executeResult d e => simpa using happ
      | displayData d => simpa using happ
      | error a b tb => simpa using happ
      | unknown s => simp [Output.isRecognized] at hrec
    | executeResult d e => simpa using happ
    | displayData d => simpa using happ
    | error a b tb => simpa using happ
    | unknown s => simpa using happ

lemma foldl_add_append (l : List Output) (acc : OutputAreaModel)
    (hc : acc.clearNext = false)
    (hall : ∀ o ∈ l, o.isRecognized = true)
    (hchain : List.Chain' notSameStream (acc.outputs ++ l)) :
    (l.foldl OutputAreaModel.add acc).outputs = acc.outputs ++ l ∧
    (l.foldl OutputAreaModel.add acc).clearNext = false := by
  induction l generalizing acc with
  | nil => exact ⟨by simp, hc⟩
  | cons o rest ih =>
    have hbound : ∀ x, acc.outputs.getLast? = some x → sameStream x o = false := by
      intro x hx
      have h3 := (List.chain'_append.1 hchain).2.2
      have := h3 x hx o (by simp)
      exact this
    have hstep := add_append_of_ok acc o hc (hall o (by simp)) hbound
    have hfold : ((o :: rest).foldl OutputAreaModel.add acc)
        = rest.foldl OutputAreaModel.add (acc.add o) := rfl
    rw [hfold, hstep]
    have hchain2 : List.Chain' notSameStream
        ((⟨acc.outputs ++ [o], false⟩ : OutputAreaModel).outputs ++ rest) := by
      show List.Chain' notSameStream ((acc.outputs ++ [o]) ++ rest)
      rw [List.append_assoc]
      simpa using hchain
    have := ih ⟨acc.outputs ++ [o], false⟩ rfl (fun o2 h2 => hall o2 (by simp [h2])) hchain2
    refine ⟨?_, this.2⟩
    rw [this.1]
    simp

lemma serializeCell_roundtrip (nb : NotebookModel) (c : DocCell)
    (h : c.wellFormed) :
    serializeCell (deserializeCell c (cellFactoryFor nb c)) = c := by
  cases c with
  | markdown src tags name =>
    obtain ⟨s, rfl⟩ : ∃ s, src = CellSource.str s := by
      cases src with
      | str s => exact ⟨s, rfl⟩
      | lines ls => exact absurd h (by simp [DocCell.wellFormed, CellSource.isStr])
    rfl
  | raw src tags name fmt =>
    obtain ⟨s, rfl⟩ : ∃ s, src = CellSource.str s := by
      cases src with
      | str s => exact ⟨s, rfl⟩
      | lines ls => exact absurd h (by simp [DocCell.wellFormed, CellSource.isStr])
    rfl
  | code src tags name collapsed scrolled ec outs =>
    obtain ⟨hs, hall, hchain⟩ := h
    obtain ⟨s, rfl⟩ : ∃ s, src = CellSource.str s := by
      cases src with
      | str s => exact ⟨s, rfl⟩
      | lines ls => exact absurd hs (by simp [CellSource.isStr])
    have houts := (foldl_add_append outs ⟨[], false⟩ rfl hall
      (by simpa using chain'_of_streamChainOk outs hchain)).1
    have hred : serializeCell (deserializeCell
          (DocCell.code (CellSource.str s) tags name collapsed scrolled ec outs)
          (cellFactoryFor nb
            (DocCell.code (CellSource.str s) tags name collapsed scrolled ec outs)))
        = DocCell.code (CellSource.str s) tags name collapsed scrolled ec
            (outs.foldl OutputAreaModel.add ⟨[], false⟩).outputs := rfl
    rw [hred, houts]
    simp

lemma serializeCell_active (c : CellModel) (b : Bool) :
    serializeCell { c with active := b } = serializeCell c := by
  obtain ⟨t, f1, f2, f3, f4, f5, f6, f7, f8, f9, f10, f11, f12, f13, f14, f15⟩ := c
  cases t <;> rfl

lemma setActiveFlags_map_serializeCell (v : Int) (i : Nat) (l : List CellModel) :
    (setActiveFlags v i l).map serializeCell = l.map serializeCell := by
  induction l generalizing i with
  | nil => rfl
  | cons c cs ih =>
    simp only [setActiveFlags, List.map_cons, ih (i + 1), serializeCell_active]

lemma deserStep_cells_map (cs : List DocCell) (nb : NotebookModel)
    (h : ∀ c ∈ cs, c.wellFormed) :
    (cs.foldl deserStep nb).cells.map serializeCell
      = nb.cells.map serializeCell ++ cs := by
  induction cs generalizing nb with
  | nil => simp
  | cons c rest ih =>
    have hstep : (deserStep nb c).cells.map serializeCell
        = nb.cells.map serializeCell ++ [c] := by
      show ((setActiveFlags _ 0
          (nb.cells ++ [deserializeCell c (cellFactoryFor nb c)])).map serializeCell) = _
      rw [setActiveFlags_map_serializeCell, List.map_append]
      simp [serializeCell_roundtrip nb c (h c (by simp))]
    have hrest := ih (deserStep nb c) (fun c2 hc2 => h c2 (by simp [hc2]))
    calc ((c :: rest).foldl deserStep nb).cells.map serializeCell
        = (rest.foldl deserStep (deserStep nb c)).cells.map serializeCell := rfl
      _ = (deserStep nb c).cells.map serializeCell ++ rest := hrest
      _ = (nb.cells.map serializeCell ++ [c]) ++ rest := by rw [hstep]
      _ = nb.cells.map serializeCell ++ (c :: rest) := by simp

lemma deserStep_metadata (cs : List DocCell) (nb : NotebookModel) :
    (cs.foldl deserStep nb).metadata = nb.metadata := by
  induction cs generalizing nb with
  | nil => rfl
  | cons c rest ih => exact (ih (deserStep nb c)).trans rfl

lemma deserialize_cells (data : NotebookContent) (model : NotebookModel) :
    (deserialize data model).cells
      = (data.cells.foldl deserStep { model with cells := [] }).cells := by
  simp only [deserialize]
  split_ifs <;> rfl

lemma deserialize_metadata (data : NotebookContent) (model : NotebookModel) :
    (deserialize data model).metadata = data.metadata := rfl

/-- A document whose single code cell carries two adjacent stdout stream
outputs. -/
def docStreams : NotebookContent :=
  { cells := [DocCell.code (CellSource.str "print(1)") ["t"] none false false (some 1)
      [Output.stream "stdout" "a", Output.stream "stdout" "b"]],
    metadata := { kernelspecName := "python3", kernelspecDisplayName := "Python 3",
                  languageInfoName := "python" },
    nbformat := 4, nbformat_minor := 0 }

/-- C6 (counterexample): deserializing a well-formed document whose code
cell holds the adjacent outputs Stream("stdout","a"),
Stream("stdout","b") routes each output through `OutputAreaModel.add`,
which consolidates them into the single entry Stream("stdout","ab");
serializing the model back therefore does not reproduce the document
field for field. -/
theorem C6_counterexample :
    serialize (deserialize docStreams emptyNotebook) ≠ docStreams := by
  decide

/-- C6 (amended): for every notebook document whose nbformat version
fields are the current ones and whose cells are round-trip well formed —
source given as a single string, and code-cell outputs all of recognized
kinds with no two adjacent same-channel stream outputs — deserializing
into a fresh notebook model and serializing reproduces the document
field for field. -/
theorem C6_roundtrip (doc : NotebookContent)
    (h1 : doc.nbformat = MAJOR_VERSION) (h2 : doc.nbformat_minor = MINOR_VERSION)
    (h3 : ∀ c ∈ doc.cells, c.wellFormed) :
    serialize (deserialize doc emptyNotebook) = doc := by
  have hs : serialize (deserialize doc emptyNotebook)
      = ⟨(deserialize doc emptyNotebook).cells.map serializeCell,
         (deserialize doc emptyNotebook).metadata, MAJOR_VERSION, MINOR_VERSION⟩ := rfl
  rw [hs, deserialize_cells, deserialize_metadata]
  have hmap := deserStep_cells_map doc.cells { emptyNotebook with cells := [] } h3
  rw [hmap]
  have hnil : ({ emptyNotebook with cells := [] } : NotebookModel).cells.map serializeCell
      = [] := rfl
  rw [hnil]
  obtain ⟨cells, metadata, nf, nfm⟩ := doc
  have h1' : nf = MAJOR_VERSION := h1
  have h2' : nfm = MINOR_VERSION := h2
  subst h1' h2'
  simp

/-- A document holding one cell of each type with non-empty outputs and
tags (the shape named by the claim). -/
def docMixed : NotebookContent :=
  { cells := [DocCell.code (CellSource.str "print(1)") ["t1"] (some "c1") false true (some 2)
      [Output.stream "stdout" "a", Output.displayData "img",
       Output.stream "stdout" "c", Output.stream "stderr" "d"],
    DocCell.markdown (CellSource.str "# hi") ["t2"] none,
    DocCell.raw (CellSource.str "raw text") ["t3"] (some "r1") (some "text/html")],
    metadata := { kernelspecName := "python3", kernelspecDisplayName := "Python 3",
                  languageInfoName := "python" },
    nbformat := 4, nbformat_minor := 0 }

/-- C6 (witness): the amended round-trip theorem evaluated on a concrete
document with code, markdown and raw cells, non-empty outputs and
tags. -/
theorem C6_witness : serialize (deserialize docMixed emptyNotebook) = docMixed :=
  C6_roundtrip docMixed rfl rfl (by decide)
